import Mathlib

/-!
Verification development for a browser extension that extracts a video's
caption transcript, translates it chunk by chunk, and summarizes it.

The TypeScript sources are shallowly embedded below.  Strings are modelled
as `List Char` (one element per UTF-16-ish code unit; lengths agree with
JavaScript `.length` on the basic plane).  Browser state (URL parameters,
document attributes, the DOM, network responses) is passed explicitly as
function arguments; `fetch`/JSON failures are modelled with `Option` and
`Except`.  Case mapping (`toLowerCase`) is modelled on the ASCII range.
-/

set_option autoImplicit false
set_option maxRecDepth 10000

namespace YTT

/-- Whitespace characters recognised by the model (covers the whitespace
actually occurring in transcripts: space, tab, CR, LF). -/
def isWs (c : Char) : Bool :=
  c = ' ' || c = '\t' || c = '\n' || c = '\r'

/-- Model of JavaScript `String.prototype.trim`: drop whitespace from both
ends. -/
def jsTrim (cs : List Char) : List Char :=
  ((cs.dropWhile isWs).reverse.dropWhile isWs).reverse

/-- All non-whitespace characters of a string, in order.  Used to state
"reconstruction up to whitespace normalization". -/
def stripWs (cs : List Char) : List Char :=
  cs.filter (fun c => !isWs c)

/-- Model of JavaScript `String.prototype.toLowerCase`, on the ASCII range
(`Char.toLower` lowers exactly the characters A–Z). -/
def jsToLower (cs : List Char) : List Char :=
  cs.map Char.toLower

/-- Model of JavaScript `Array.prototype.join(" ")`. -/
def joinSp : List (List Char) → List Char
  | [] => []
  | [w] => w
  | w :: v :: ws => w ++ ' ' :: joinSp (v :: ws)

/-- Model of JavaScript `String.prototype.split(" ")`: split on every
single space character, keeping empty fragments, `[""]` on empty input. -/
def splitSp : List Char → List (List Char)
  | [] => [[]]
  | c :: rest =>
    match splitSp rest with
    | [] => [[]]
    | w :: ws => if c = ' ' then [] :: w :: ws else (c :: w) :: ws

/-- Sentence-ending punctuation of the chunker's regular expression. -/
def isPunct (c : Char) : Bool :=
  c = '.' || c = '!' || c = '?'

/-- Scanner behind the model of `text.match(/[^.!?]+[.!?]+/g)`.  When
`inPunct` is false the scanner is inside a run of non-punctuation
characters (accumulated reversed in `nbuf`); when true it is inside the
following punctuation run (`pbuf`).  A completed non-punctuation run
followed by a completed punctuation run is one regex match; a trailing
run without closing punctuation is dropped, exactly as the unanchored
global match does. -/
def sentSplitAux : Bool → List Char → List Char → List Char → List (List Char)
  | false, _, _, [] => []
  | false, nbuf, _, c :: rest =>
    if isPunct c then sentSplitAux true nbuf [c] rest
    else sentSplitAux false (c :: nbuf) [] rest
  | true, nbuf, pbuf, [] => [nbuf.reverse ++ pbuf.reverse]
  | true, nbuf, pbuf, c :: rest =>
    if isPunct c then sentSplitAux true nbuf (c :: pbuf) rest
    else (nbuf.reverse ++ pbuf.reverse) :: sentSplitAux false [c] [] rest

/-- Model of `text.match(/[^.!?]+[.!?]+/g)` in `smartChunkText`
(src/extension/translation/utils.ts line 48): the successive leftmost
matches, each a maximal run of non-punctuation characters followed by a
maximal run of punctuation.  A leading punctuation run and a trailing
unterminated fragment are not part of any match. -/
def sentSplit : List Char → List (List Char)
  | [] => []
  | c :: rest =>
    if isPunct c then sentSplit rest
    else sentSplitAux false [c] [] rest

/-- One step of the inner word-packing loop of `smartChunkText`
(utils.ts lines 70–79): state is (emitted chunks, running `longChunk`). -/
def wordStep (maxSize : Nat) (st : List (List Char) × List Char) (w : List Char) :
    List (List Char) × List Char :=
  let chunks := st.1
  let long := st.2
  if maxSize < (long ++ w).length then
    ((if long = [] then chunks else chunks ++ [jsTrim long]), w ++ [' '])
  else
    (chunks, long ++ w ++ [' '])

/-- One step of the outer sentence loop of `smartChunkText`
(utils.ts lines 52–87): state is (emitted chunks, `currentChunk`). -/
def sentStep (maxSize : Nat) (st : List (List Char) × List Char) (sentence : List Char) :
    List (List Char) × List Char :=
  let chunks := st.1
  let cur := st.2
  let t := jsTrim sentence
  if cur ≠ [] ∧ maxSize < cur.length + t.length + 1 then
    (chunks ++ [jsTrim cur], t)
  else if maxSize < t.length then
    let chunks1 := if cur = [] then chunks else chunks ++ [jsTrim cur]
    (splitSp t).foldl (wordStep maxSize) (chunks1, [])
  else
    (chunks, cur ++ (if cur = [] then [] else [' ']) ++ t)

/-- Model of `smartChunkText` (src/extension/translation/utils.ts lines
45–94), parametrized by the maximum chunk size. -/
def smartChunkList (maxSize : Nat) (text : List Char) : List (List Char) :=
  let m := sentSplit text
  let sentences := if m = [] then [text] else m
  let st := sentences.foldl (sentStep maxSize) ([], [])
  let chunks := if st.2 = [] then st.1 else st.1 ++ [jsTrim st.2]
  if chunks = [] then [text] else chunks

/-- The module-level constant `MAX_CHUNK_SIZE` (utils.ts line 36). -/
def MAX_CHUNK_SIZE : Nat := 500

/-- `smartChunkText` at the configured maximum size. -/
def smartChunkText (text : List Char) : List (List Char) :=
  smartChunkList MAX_CHUNK_SIZE text

/-! ### Language detector (src/extension/translation/utils.ts lines 20–34) -/

/-- JavaScript truthiness of a nullable string: `null` and the empty
string are falsy. -/
def jsTruthyS : Option (List Char) → Bool
  | none => false
  | some s => !s.isEmpty

/-- Model of `s.split("-")[0]`: the prefix before the first hyphen. -/
def dashHead (s : List Char) : List Char :=
  s.takeWhile (fun c => c ≠ '-')

/-- The normalization `s.split("-")[0].toLowerCase()` applied by
`getYouTubeLanguage` to each signal. -/
def normLang (s : List Char) : List Char :=
  jsToLower (dashHead s)

/-- Model of `getYouTubeLanguage`.  The three browser signals — the URL
parameter `hl`, the document `lang` attribute and `navigator.language` —
are passed explicitly (`none` models an absent value). -/
def getYouTubeLanguage (hl htmlLang navLang : Option (List Char)) : List Char :=
  if jsTruthyS hl then normLang (hl.getD [])
  else if jsTruthyS htmlLang then normLang (htmlLang.getD [])
  else normLang (if jsTruthyS navLang then navLang.getD [] else ("en".data))

/-! ### Button locator (src/extension/core/youtube-utils.ts) -/

/-- The static label table `TRANSCRIPT_BUTTON_LABELS`
(youtube-utils.ts lines 19–41), as an association list in source order. -/
def TRANSCRIPT_BUTTON_LABELS : List (List Char × List Char) :=
  [ ("en".data, "Show transcript".data),
    ("es".data, "Mostrar transcripción".data),
    ("fr".data, "Afficher la transcription".data),
    ("de".data, "Transkript anzeigen".data),
    ("it".data, "Mostra trascrizione".data),
    ("pt".data, "Mostrar transcrição".data),
    ("ru".data, "Показать расшифровку".data),
    ("ja".data, "文字起こしを表示".data),
    ("ko".data, "녹취록 표시".data),
    ("zh-Hans".data, "显示字幕文稿".data),
    ("zh-Hant".data, "顯示字幕文稿".data),
    ("zh".data, "显示字幕文稿".data),
    ("ar".data, "إظهار النص".data),
    ("nl".data, "Transcript weergeven".data),
    ("pl".data, "Pokaż transkrypcję".data),
    ("tr".data, "Deşifre metni göster".data),
    ("hi".data, "ट्रांसक्रिप्ट दिखाएं".data),
    ("sv".data, "Visa transkription".data),
    ("no".data, "Vis transkript".data),
    ("da".data, "Vis transskription".data),
    ("fi".data, "Näytä tekstitys".data) ]

/-- `TRANSCRIPT_BUTTON_LABELS[currentLanguage] || TRANSCRIPT_BUTTON_LABELS["en"]`
(youtube-utils.ts lines 61–62). -/
def expectedLabelFor (lang : List Char) : List Char :=
  (TRANSCRIPT_BUTTON_LABELS.lookup lang).getD ("Show transcript".data)

/-- The keyword fallback list `transcriptKeywords`
(youtube-utils.ts lines 87–95). -/
def transcriptKeywords : List (List Char) :=
  [ "transcript".data, "transkript".data, "transcripción".data,
    "transcrição".data, "trascrizione".data, "字幕".data, "문자".data ]

/-- Pass 1 predicate: exact case-insensitive label match
(youtube-utils.ts line 73). -/
def pass1 (expected : List Char) (label : List Char) : Bool :=
  jsToLower label == jsToLower expected

/-- Model of `String.prototype.includes`: `needle` occurs contiguously
in the haystack (true for an empty needle). -/
def containsSeq (needle : List Char) : List Char → Bool
  | [] => needle.isEmpty
  | c :: rest => needle.isPrefixOf (c :: rest) || containsSeq needle rest

/-- Pass 2 predicate: case-insensitive substring match of the expected
label inside the candidate label (youtube-utils.ts line 81). -/
def pass2 (expected : List Char) (label : List Char) : Bool :=
  containsSeq (jsToLower expected) (jsToLower label)

/-- Pass 3 predicate: case-insensitive match against the fixed keyword
list (youtube-utils.ts line 99). -/
def pass3 (label : List Char) : Bool :=
  transcriptKeywords.any (fun k => containsSeq k (jsToLower label))

/-- The index of the first element satisfying `p`, in document order:
model of each `for (const button of allButtons)` loop. -/
def findFirst (p : List Char → Bool) : List (List Char) → Option Nat
  | [] => none
  | l :: ls => if p l then some 0 else (findFirst p ls).map (fun n => n + 1)

/-- Model of `getTranscriptButton` (youtube-utils.ts lines 59–109).  The
buttons carrying an accessible label are given as the list of their
`aria-label` values in document order; the detected interface language
(the result of `getYouTubeLanguage`) is passed in.  Returns the index of
the chosen button, or `none`. -/
def getTranscriptButton (lang : List Char) (labels : List (List Char)) : Option Nat :=
  let expected := expectedLabelFor lang
  match findFirst (pass1 expected) labels with
  | some i => some i
  | none =>
    match findFirst (pass2 expected) labels with
    | some i => some i
    | none => findFirst pass3 labels

/-! ### Transcript extractor (src/extension/content.ts) -/

/-- One element of `data.events[].segs[]` of the timed-text payload. -/
structure TSeg where
  utf8 : List Char
deriving DecidableEq

/-- One element of `data.events[]`; `segs` is optional. -/
structure TEvent where
  segs : Option (List TSeg)
deriving DecidableEq

/-- The possible outcomes of the structured-source request in
`getTranscriptFromPlayerAPI`: a thrown transport/JSON-parse error, a
non-success HTTP status, or a parsed payload (`none` models a payload
with no `events` field). -/
inductive PlayerAPIInput where
  | fetchError : PlayerAPIInput
  | httpError : PlayerAPIInput
  | payload : Option (List TEvent) → PlayerAPIInput
deriving DecidableEq

/-- Replace every newline by a space: `replace(/\n/g, " ")`
(content.ts line 129). -/
def nlToSpace (cs : List Char) : List Char :=
  cs.map (fun c => if c = '\n' then ' ' else c)

/-- Collapse every maximal whitespace run to one space:
`replace(/\s+/g, " ")` (content.ts line 130).  The flag records whether
the previous character was whitespace. -/
def collapseWsAux (prevWs : Bool) : List Char → List Char
  | [] => []
  | c :: rest =>
    if isWs c then
      if prevWs then collapseWsAux true rest else ' ' :: collapseWsAux true rest
    else c :: collapseWsAux false rest

/-- `replace(/\s+/g, " ")` on a whole string. -/
def collapseWs (cs : List Char) : List Char :=
  collapseWsAux false cs

/-- The segment text of one event: `event.segs.map(seg => seg.utf8).join("")`
(content.ts line 127). -/
def eventText (e : TEvent) : List Char :=
  ((e.segs.getD []).map TSeg.utf8).flatten

/-- The flattening pipeline of `getTranscriptFromPlayerAPI`
(content.ts lines 125–131): keep events whose `segs` field is present,
join each event's segments with no separator, join events with a single
space, replace newlines by spaces, collapse whitespace runs, trim. -/
def flattenEvents (events : List TEvent) : List Char :=
  jsTrim (collapseWs (nlToSpace
    (joinSp ((events.filter (fun e => e.segs.isSome)).map eventText))))

/-- Model of `getTranscriptFromPlayerAPI` (content.ts lines 110–141):
every error is swallowed to `none`; an empty flattened text is demoted to
`none` by `transcriptText || null`. -/
def getTranscriptFromPlayerAPI : PlayerAPIInput → Option (List Char)
  | .fetchError => none
  | .httpError => none
  | .payload none => none
  | .payload (some events) =>
    let t := flattenEvents events
    if t = [] then none else some t

/-- The DOM as seen by `getTranscriptFromDOM`: whether
`getTranscriptButton` finds a button, whether the transcript panel is
present and not hidden, and the `.segment-text` text content of each
rendered `ytd-transcript-segment-renderer` (in document order, `none`
when the text element or its text is missing). -/
structure DOMState where
  buttonFound : Bool
  panelOpen : Bool
  segments : List (Option (List Char))
deriving DecidableEq

/-- Model of `getTranscriptFromDOM` (content.ts lines 143–185).  The
click and the settle delay have no bearing on the returned value; the
segment list is the one observed after them. -/
def getTranscriptFromDOM (d : DOMState) : Option (List Char) :=
  if !d.buttonFound && !d.panelOpen then none
  else if d.segments.length = 0 then none
  else
    let texts := (d.segments.map (fun o => jsTrim (o.getD []))).filter (fun t => t ≠ [])
    let t := joinSp texts
    if t = [] then none else some t

/-- The `NotAvailable` user-facing message (content.ts lines 104–106). -/
def notAvailableMsg : List Char :=
  "Transcript not available. Please ensure captions are enabled for this video.".data

/-- The `MissingVideoId` message (content.ts line 61). -/
def missingVideoIdMsg : List Char :=
  "Could not extract video ID from URL".data

/-- Model of `fetchTranscriptFromYouTube` (content.ts lines 90–108): the
structured path first, then the DOM path; when both yield nothing the
inner throw is caught and replaced by the `NotAvailable` message. -/
def fetchTranscriptFromYouTube (api : PlayerAPIInput) (dom : DOMState) :
    Except (List Char) (List Char) :=
  match getTranscriptFromPlayerAPI api with
  | some t => Except.ok t
  | none =>
    match getTranscriptFromDOM dom with
    | some t => Except.ok t
    | none => Except.error notAvailableMsg

/-- Model of `getYouTubeTranscript` (content.ts lines 57–74): the `v`
URL parameter is passed explicitly; a falsy value fails immediately. -/
def getYouTubeTranscript (vid : Option (List Char)) (api : PlayerAPIInput)
    (dom : DOMState) : Except (List Char) (List Char) :=
  if jsTruthyS vid then fetchTranscriptFromYouTube api dom
  else Except.error missingVideoIdMsg

/-! ### Translator (src/extension/translation/utils.ts lines 103–133) -/

/-- The JSON body of one translation response: nested arrays whose
innermost elements are strings, as accessed by `data[0][0][0]`. -/
def TransResp : Type := List (List (List (List Char)))

instance : DecidableEq TransResp := by
  unfold TransResp
  infer_instance

instance {ε α : Type} [DecidableEq ε] [DecidableEq α] : DecidableEq (Except ε α) :=
  fun a b =>
    match a, b with
    | Except.error x, Except.error y => decidable_of_iff (x = y) (by simp)
    | Except.error _, Except.ok _ => isFalse (by simp)
    | Except.ok _, Except.error _ => isFalse (by simp)
    | Except.ok x, Except.ok y => decidable_of_iff (x = y) (by simp)

/-- The per-chunk extraction `data[0][0][0]` (utils.ts line 120) under
JavaScript semantics: a missing `data[0]` or `data[0][0]` makes the
indexing throw (`Except.error`), while a present but empty `data[0][0]`
yields `undefined` (`Except.ok none`), which the code pushes as-is. -/
def segOf (r : TransResp) : Except Unit (Option (List Char)) :=
  match r with
  | [] => Except.error ()
  | [] :: _ => Except.error ()
  | ([] :: _) :: _ => Except.ok none
  | ((s :: _) :: _) :: _ => Except.ok (some s)

/-- The outcome of one chunk's remote call: `none` from the network
models a rejected `fetch` or a JSON parse failure. -/
def chunkOutcome (net : List Char → Option TransResp) (c : List Char) :
    Except Unit (Option (List Char)) :=
  match net c with
  | none => Except.error ()
  | some r => segOf r

/-- `Array.prototype.join(" ")` over possibly-`undefined` elements:
`undefined` contributes an empty string but still gets separators. -/
def joinOpt (l : List (Option (List Char))) : List Char :=
  joinSp (l.map (fun o => o.getD []))

/-- The `TranslationFailed` message (utils.ts line 131). -/
def translateFailMsg : List Char :=
  "Failed to translate text. Please try again.".data

/-- The sequential per-chunk loop of `translateText`
(utils.ts lines 113–121), accumulating translated chunks in reverse. -/
def transGo (net : List Char → Option TransResp) :
    List (List Char) → List (Option (List Char)) → Except (List Char) (List Char)
  | [], acc => Except.ok (joinOpt acc.reverse)
  | c :: rest, acc =>
    match chunkOutcome net c with
    | Except.error _ => Except.error translateFailMsg
    | Except.ok v => transGo net rest (v :: acc)

/-- Model of `translateText` (utils.ts lines 103–133).  The remote
service is the explicit argument `net` (the target language only selects
the remote URL, so it is folded into `net`). -/
def translateText (net : List Char → Option TransResp) (text : List Char) :
    Except (List Char) (List Char) :=
  transGo net (smartChunkText text) []

/-! ### Enhancer (src/extension/content.ts lines 187–234) -/

/-- One element of the summarization response array. -/
structure SummaryEntry where
  summary_text : List Char
deriving DecidableEq

/-- A summarization HTTP response: status, the `x-ratelimit-reset`
header, the raw body text, and the parsed JSON body (`none` when the
body is not the expected array). -/
structure HFResp where
  status : Nat
  resetHeader : Option (List Char)
  bodyText : List Char
  jsonBody : Option (List SummaryEntry)
deriving DecidableEq

/-- `response.ok`: status in the 200–299 range. -/
def respOk (status : Nat) : Bool :=
  200 ≤ status && status ≤ 299

/-- Model of `enhanceTranscriptWithAI` (content.ts lines 187–234).
`fmtTime` abstracts the locale-dependent pipeline
`parseInt`/`new Date(... * 1000)`/`toLocaleTimeString` applied to the
raw header value. -/
def enhanceTranscriptWithAI (fmtTime : List Char → List Char) (resp : HFResp) :
    Except (List Char) (List Char) :=
  if !respOk resp.status then
    if resp.status = 429 then
      if jsTruthyS resp.resetHeader then
        Except.error (("Rate limit exceeded. Try again after ".data)
          ++ fmtTime (resp.resetHeader.getD []))
      else Except.error ("Rate limit exceeded. Try again later".data)
    else if resp.status = 503 then
      Except.error ("Model is loading. Please wait 20 seconds and try again".data)
    else
      Except.error (("API error: ".data) ++ (Nat.repr resp.status).data
        ++ (" - ".data) ++ resp.bodyText)
  else
    match resp.jsonBody with
    | some (e :: _) => Except.ok e.summary_text
    | _ => Except.error ("Cannot read summary from response".data)

/-! ### Verification-side definitions -/

/-- The non-whitespace content of a chunker state: emitted chunks
followed by the pending chunk, all whitespace removed. -/
def wsOf (st : List (List Char) × List Char) : List Char :=
  (st.1.map stripWs).flatten ++ stripWs st.2

/-- Concrete input for the chunk-size bound: a short first sentence
followed by a 502-character second sentence that contains a space. -/
def overflowInput : List Char :=
  'a' :: '.' :: ' ' :: (List.replicate 499 'b' ++ [' ', 'c', '.'])

/-- Concrete input producing exactly two chunks (two 251-character
sentences that cannot share a 500-character chunk). -/
def twoChunkInput : List Char :=
  List.replicate 250 'a' ++ '.' :: (List.replicate 250 'b' ++ ['.'])

/-- The first chunk of `twoChunkInput`. -/
def chunkA : List Char :=
  List.replicate 250 'a' ++ ['.']

/-- A mock translation remote giving distinct responses for the two
chunks of `twoChunkInput`. -/
def mockNet (c : List Char) : Option TransResp :=
  if c == chunkA then some [[[("X".data)]]] else some [[[("Y".data)]]]

/-- The per-chunk first translated segment of `mockNet`. -/
def mockSeg (c : List Char) : List Char :=
  if c == chunkA then "X".data else "Y".data

/-- A remote whose response parses but carries an empty innermost
segment array: `data[0][0][0]` is `undefined` in JavaScript. -/
def emptySegNet : List Char → Option TransResp :=
  fun _ => some [[[]]]

/-- A remote whose every call fails at the transport level. -/
def downNet : List Char → Option TransResp :=
  fun _ => none

/-- The events fixture of the spec's extractor test. -/
def helloEvents : List TEvent :=
  [⟨some [⟨"Hello ".data⟩]⟩, ⟨some [⟨"world".data⟩]⟩]

/-! ## General lemmas -/

theorem stripWs_append (a b : List Char) :
    stripWs (a ++ b) = stripWs a ++ stripWs b := by
  simp [stripWs, List.filter_append]

theorem stripWs_dropWhile_isWs (cs : List Char) :
    stripWs (cs.dropWhile isWs) = stripWs cs := by
  induction cs with
  | nil => rfl
  | cons c rest ih =>
    rw [List.dropWhile_cons]
    by_cases h : isWs c = true
    · simp only [h, if_true, ih]
      simp [stripWs, h]
    · simp [h]

theorem stripWs_reverse (cs : List Char) :
    stripWs cs.reverse = (stripWs cs).reverse := by
  simp [stripWs, List.filter_reverse]

theorem stripWs_jsTrim (cs : List Char) :
    stripWs (jsTrim cs) = stripWs cs := by
  unfold jsTrim
  rw [stripWs_reverse, stripWs_dropWhile_isWs, stripWs_reverse,
    stripWs_dropWhile_isWs, List.reverse_reverse]

theorem stripWs_joinSp (l : List (List Char)) :
    stripWs (joinSp l) = (l.map stripWs).flatten := by
  induction l with
  | nil => rfl
  | cons w ws ih =>
    cases ws with
    | nil => simp [joinSp]
    | cons v vs =>
      rw [joinSp, stripWs_append]
      have h1 : stripWs (' ' :: joinSp (v :: vs)) = stripWs (joinSp (v :: vs)) := by
        simp [stripWs, isWs]
      rw [h1, ih]
      simp

theorem stripWs_flatten (l : List (List Char)) :
    stripWs l.flatten = (l.map stripWs).flatten := by
  induction l with
  | nil => rfl
  | cons w ws ih => simp [stripWs_append, ih]

theorem splitSp_ne_nil (cs : List Char) : splitSp cs ≠ [] := by
  cases cs with
  | nil => simp [splitSp]
  | cons c rest =>
    rw [splitSp]
    cases h : splitSp rest with
    | nil => simp
    | cons w ws =>
      by_cases hc : c = ' ' <;> simp [hc]

theorem splitSp_flatten (cs : List Char) :
    (splitSp cs).flatten = cs.filter (fun c => c != ' ') := by
  induction cs with
  | nil => rfl
  | cons c rest ih =>
    rw [splitSp]
    cases h : splitSp rest with
    | nil => exact absurd h (splitSp_ne_nil rest)
    | cons w ws =>
      rw [h] at ih
      by_cases hc : c = ' '
      · subst hc
        simp [ih]
      · simp only [if_neg hc, List.flatten_cons, List.cons_append]
        rw [← List.flatten_cons, ih]
        simp [hc]

theorem stripWs_filter_space (cs : List Char) :
    stripWs (cs.filter (fun c => c != ' ')) = stripWs cs := by
  induction cs with
  | nil => rfl
  | cons c rest ih =>
    by_cases hc : c = ' '
    · subst hc
      simpa [stripWs, isWs] using ih
    · by_cases hw : isWs c = true <;> simp [stripWs, hc, hw] at ih ⊢ <;> simpa using ih

theorem splitSp_stripWs (cs : List Char) :
    (((splitSp cs).map stripWs).flatten) = stripWs cs := by
  rw [← stripWs_flatten, splitSp_flatten, stripWs_filter_space]

/-! ## Content preservation through the chunker loops -/

theorem stripWs_nil : stripWs [] = [] := rfl

theorem stripWs_single_space : stripWs [' '] = [] := rfl

theorem stripWs_space_cons (l : List Char) : stripWs (' ' :: l) = stripWs l := by
  simp [stripWs, isWs]

theorem wsOf_pair (chunks : List (List Char)) (cur : List Char) :
    wsOf (chunks, cur) = (chunks.map stripWs).flatten ++ stripWs cur := rfl

theorem wsOf_push (chunks : List (List Char)) (cur : List Char) :
    wsOf (chunks ++ [jsTrim cur], ([] : List Char)) = wsOf (chunks, cur) := by
  rw [wsOf_pair, wsOf_pair, List.map_append, List.flatten_append, stripWs_nil]
  simp [stripWs_jsTrim]

theorem wordStep_wsOf (maxSize : Nat) (st : List (List Char) × List Char) (w : List Char) :
    wsOf (wordStep maxSize st w) = wsOf st ++ stripWs w := by
  obtain ⟨chunks, long⟩ := st
  unfold wordStep
  by_cases hover : maxSize < (long ++ w).length
  · rw [if_pos hover]
    by_cases hl : long = []
    · subst hl
      rw [if_pos rfl, wsOf_pair, wsOf_pair, stripWs_append, stripWs_single_space,
        stripWs_nil]
      simp
    · rw [if_neg hl, wsOf_pair, wsOf_pair, List.map_append, List.flatten_append,
        stripWs_append, stripWs_single_space]
      simp [stripWs_jsTrim]
  · rw [if_neg hover, wsOf_pair, wsOf_pair, stripWs_append, stripWs_append,
      stripWs_single_space]
    simp

theorem foldl_wordStep_wsOf (maxSize : Nat) (ws : List (List Char))
    (st : List (List Char) × List Char) :
    wsOf (ws.foldl (wordStep maxSize) st) = wsOf st ++ (ws.map stripWs).flatten := by
  induction ws generalizing st with
  | nil => simp
  | cons w rest ih =>
    rw [List.foldl_cons, ih, wordStep_wsOf]
    simp

theorem sentStep_wsOf (maxSize : Nat) (st : List (List Char) × List Char)
    (s : List Char) :
    wsOf (sentStep maxSize st s) = wsOf st ++ stripWs s := by
  obtain ⟨chunks, cur⟩ := st
  unfold sentStep
  by_cases h1 : cur ≠ [] ∧ maxSize < cur.length + (jsTrim s).length + 1
  · rw [if_pos h1, wsOf_pair, wsOf_pair, List.map_append, List.flatten_append]
    simp [stripWs_jsTrim]
  · rw [if_neg h1]
    by_cases h2 : maxSize < (jsTrim s).length
    · rw [if_pos h2, foldl_wordStep_wsOf, splitSp_stripWs, stripWs_jsTrim]
      by_cases hc : cur = []
      · subst hc
        rw [if_pos rfl]
      · rw [if_neg hc, wsOf_push]
    · rw [if_neg h2]
      by_cases hc : cur = []
      · subst hc
        rw [if_pos rfl, wsOf_pair, wsOf_pair, stripWs_nil]
        simp [stripWs_append, stripWs_jsTrim]
      · rw [if_neg hc, wsOf_pair, wsOf_pair, stripWs_append, stripWs_append,
          stripWs_space_cons, stripWs_nil]
        simp [stripWs_jsTrim]

theorem foldl_sentStep_wsOf (maxSize : Nat) (sentences : List (List Char))
    (st : List (List Char) × List Char) :
    wsOf (sentences.foldl (sentStep maxSize) st)
      = wsOf st ++ (sentences.map stripWs).flatten := by
  induction sentences generalizing st with
  | nil => simp
  | cons s rest ih =>
    rw [List.foldl_cons, ih, sentStep_wsOf]
    simp

/-- The chunk list built from a final loop state: emitted chunks plus
the flushed pending chunk, falling back to the whole text when empty. -/
theorem smartChunkList_eq (maxSize : Nat) (text : List Char) :
    smartChunkList maxSize text
      = (let st := (if sentSplit text = [] then [text] else sentSplit text).foldl
          (sentStep maxSize) ([], []);
        let chunks := if st.2 = [] then st.1 else st.1 ++ [jsTrim st.2];
        if chunks = [] then [text] else chunks) := rfl

/-- When the sentence matches cover the whole text (or there is no
match), the chunks of `smartChunkList` carry exactly the non-whitespace
content of the text. -/
theorem smartChunkList_strip (maxSize : Nat) (text : List Char)
    (hcov : (sentSplit text).flatten = text ∨ sentSplit text = []) :
    stripWs (joinSp (smartChunkList maxSize text)) = stripWs text := by
  rw [smartChunkList_eq]
  set sentences := if sentSplit text = [] then [text] else sentSplit text with hs
  have hsent : (sentences.map stripWs).flatten = stripWs text := by
    by_cases hm : sentSplit text = []
    · rw [hs, if_pos hm]
      simp
    · rw [hs, if_neg hm]
      cases hcov with
      | inl h => rw [← stripWs_flatten, h]
      | inr h => exact absurd h hm
  set st := sentences.foldl (sentStep maxSize) ([], []) with hst
  have hfold : wsOf st = stripWs text := by
    rw [hst, foldl_sentStep_wsOf, ← hsent, wsOf_pair]
    simp [stripWs_nil]
  show stripWs (joinSp (let chunks := if st.2 = [] then st.1 else st.1 ++ [jsTrim st.2];
    if chunks = [] then [text] else chunks)) = stripWs text
  by_cases h2 : st.2 = []
  · show stripWs (joinSp (if (if st.2 = [] then st.1 else st.1 ++ [jsTrim st.2]) = []
      then [text] else (if st.2 = [] then st.1 else st.1 ++ [jsTrim st.2]))) = stripWs text
    rw [if_pos h2]
    by_cases hch : st.1 = []
    · rw [if_pos hch]
      simp [joinSp]
    · rw [if_neg hch, stripWs_joinSp, ← hfold, wsOf_pair, h2, stripWs_nil,
        List.append_nil]
  · show stripWs (joinSp (if (if st.2 = [] then st.1 else st.1 ++ [jsTrim st.2]) = []
      then [text] else (if st.2 = [] then st.1 else st.1 ++ [jsTrim st.2]))) = stripWs text
    rw [if_neg h2]
    have hne : st.1 ++ [jsTrim st.2] ≠ [] := by simp
    rw [if_neg hne, stripWs_joinSp, ← hfold, wsOf_pair, List.map_append,
      List.flatten_append]
    simp [stripWs_jsTrim]

/-- `smartChunkList` never returns an empty chunk sequence. -/
theorem smartChunkList_ne_nil (maxSize : Nat) (text : List Char) :
    smartChunkList maxSize text ≠ [] := by
  rw [smartChunkList_eq]
  set st := (if sentSplit text = [] then [text] else sentSplit text).foldl
    (sentStep maxSize) ([], []) with hst
  show (let chunks := if st.2 = [] then st.1 else st.1 ++ [jsTrim st.2];
    if chunks = [] then [text] else chunks) ≠ []
  by_cases h : (if st.2 = [] then st.1 else st.1 ++ [jsTrim st.2]) = []
  · rw [h]
    simp
  · show (if (if st.2 = [] then st.1 else st.1 ++ [jsTrim st.2]) = []
      then [text] else (if st.2 = [] then st.1 else st.1 ++ [jsTrim st.2])) ≠ []
    rw [if_neg h]
    exact h

/-! ## Translator loop lemmas -/

theorem transGo_ok (net : List Char → Option TransResp) (f : List Char → List Char)
    (cs : List (List Char)) (acc : List (Option (List Char)))
    (h : ∀ c ∈ cs, chunkOutcome net c = Except.ok (some (f c))) :
    transGo net cs acc
      = Except.ok (joinOpt (acc.reverse ++ cs.map (fun c => some (f c)))) := by
  induction cs generalizing acc with
  | nil => simp [transGo]
  | cons c rest ih =>
    rw [transGo, h c (by simp)]
    show transGo net rest (some (f c) :: acc)
      = Except.ok (joinOpt (acc.reverse ++ (c :: rest).map (fun c => some (f c))))
    rw [ih (some (f c) :: acc) (fun x hx => h x (by simp [hx]))]
    simp

theorem transGo_error (net : List Char → Option TransResp)
    (cs : List (List Char)) (acc : List (Option (List Char)))
    (h : ∃ c ∈ cs, chunkOutcome net c = Except.error ()) :
    transGo net cs acc = Except.error translateFailMsg := by
  induction cs generalizing acc with
  | nil => simp at h
  | cons c rest ih =>
    rw [transGo]
    cases ho : chunkOutcome net c with
    | error e => rfl
    | ok v =>
      apply ih
      obtain ⟨x, hx, he⟩ := h
      rcases List.mem_cons.1 hx with rfl | hmem
      · rw [ho] at he
        exact absurd he (by simp)
      · exact ⟨x, hmem, he⟩

/-! ## Claims -/

/-- C2: every chunk returned by the chunker should have length at most
the configured maximum (500) unless it is a single over-long word.  The
code violates this: when an over-long sentence arrives while a chunk is
pending, the first branch of the loop makes it the new `currentChunk`
wholesale, and it is later emitted unsplit.  On `overflowInput`
("a. " followed by a 502-character two-word sentence) the second emitted
chunk has 502 characters and contains a space. -/
theorem C2_overflow_chunk :
    smartChunkText overflowInput
      = [['a', '.'], List.replicate 499 'b' ++ [' ', 'c', '.']]
    ∧ MAX_CHUNK_SIZE < (List.replicate 499 'b' ++ [' ', 'c', '.']).length
    ∧ (List.replicate 499 'b' ++ [' ', 'c', '.']).contains ' ' = true := by
  decide

/-- C3 (counterexample): joining the chunks of `"a. b"` does not
reconstruct the input even after removing all whitespace — the sentence
matcher drops the trailing unterminated fragment `"b"`. -/
theorem C3_counterexample :
    stripWs (joinSp (smartChunkText ("a. b".data))) ≠ stripWs ("a. b".data) := by
  decide

/-- C3 (amended): for every non-empty input text the chunker returns a
non-empty chunk sequence (unconditionally); and when additionally the
sentence matcher covers the whole input (the input is a concatenation of
punctuation-terminated sentences) or finds no sentence at all, joining
the chunks with single spaces reconstructs the input up to whitespace
normalization. -/
theorem C3_chunks_reconstruct (text : List Char) (_hne : text ≠ []) :
    smartChunkText text ≠ []
    ∧ ((sentSplit text).flatten = text ∨ sentSplit text = [] →
        stripWs (joinSp (smartChunkText text)) = stripWs text) :=
  ⟨smartChunkList_ne_nil MAX_CHUNK_SIZE text,
    fun hcov => smartChunkList_strip MAX_CHUNK_SIZE text hcov⟩

/-- C3 (witness): the amended statement at a concrete two-sentence
input, both conjuncts discharged. -/
theorem C3_witness :
    smartChunkText ("Hello world. How are you?".data) ≠ []
    ∧ stripWs (joinSp (smartChunkText ("Hello world. How are you?".data)))
      = stripWs ("Hello world. How are you?".data) :=
  ⟨(C3_chunks_reconstruct ("Hello world. How are you?".data) (by decide)).1,
    (C3_chunks_reconstruct ("Hello world. How are you?".data) (by decide)).2 (by decide)⟩

/-- C4: when every per-chunk remote call succeeds, `translateText`
returns exactly the first translated segment of each chunk's response,
joined with single spaces, in chunk order. -/
theorem C4_translate_success (net : List Char → Option TransResp)
    (f : List Char → List Char) (text : List Char)
    (h : ∀ c ∈ smartChunkText text, chunkOutcome net c = Except.ok (some (f c))) :
    translateText net text = Except.ok (joinSp ((smartChunkText text).map f)) := by
  unfold translateText
  rw [transGo_ok net f _ [] h]
  have hcomp : ((fun o => Option.getD o []) ∘ fun c => some (f c)) = f :=
    funext (fun c => rfl)
  simp only [List.reverse_nil, List.nil_append, joinOpt, List.map_map, hcomp]

/-- C4 (witness): a text producing exactly two chunks with two distinct
mock responses yields the two results joined with one space. -/
theorem C4_witness :
    translateText mockNet twoChunkInput
      = Except.ok (joinSp ((smartChunkText twoChunkInput).map mockSeg))
    ∧ joinSp ((smartChunkText twoChunkInput).map mockSeg) = "X Y".data :=
  ⟨C4_translate_success mockNet mockSeg twoChunkInput (by decide), by decide⟩

/-- C5 (counterexample): a malformed response whose innermost segment
array is empty does not abort the translation — `data[0][0][0]` is
`undefined`, is pushed, and joins as an empty string, so `translateText`
succeeds instead of failing with `TranslationFailed`. -/
theorem C5_counterexample :
    translateText emptySegNet ("Hi.".data) = Except.ok [] := by
  decide

/-- C5 (amended): if any chunk's remote call throws — a network/JSON
failure, or a response lacking the array nesting down to `data[0][0]` —
the whole translation fails with the single `TranslationFailed` message
and no partial result; only a response whose innermost segment list is
empty escapes this, contributing a silent empty segment. -/
theorem C5_translate_aborts (net : List Char → Option TransResp) (text : List Char)
    (h : ∃ c ∈ smartChunkText text, chunkOutcome net c = Except.error ()) :
    translateText net text = Except.error translateFailMsg :=
  transGo_error net (smartChunkText text) [] h

/-- C5 (witness): the amended statement with a remote that fails at the
transport level. -/
theorem C5_witness :
    translateText downNet ("Hi.".data) = Except.error translateFailMsg :=
  C5_translate_aborts downNet ("Hi.".data) (by decide)

/-- The DOM path yields nothing when every rendered segment's text is
empty after trimming (in particular when there are no segments). -/
theorem domNone_of_blank (d : DOMState) (h : ∀ s ∈ d.segments, jsTrim (s.getD []) = []) :
    getTranscriptFromDOM d = none := by
  unfold getTranscriptFromDOM
  by_cases h1 : (!d.buttonFound && !d.panelOpen) = true
  · rw [if_pos h1]
  · rw [if_neg h1]
    by_cases h2 : d.segments.length = 0
    · rw [if_pos h2]
    · rw [if_neg h2]
      have hfil : (d.segments.map (fun o => jsTrim (o.getD []))).filter
          (fun t => t ≠ []) = [] := by
        rw [List.filter_eq_nil_iff]
        intro a ha
        obtain ⟨s, hs, rfl⟩ := List.mem_map.1 ha
        simp [h s hs]
      rw [hfil]
      rfl

/-- C1: with a video identifier present, the extractor returns the
structured-source text whenever that path yields one (for every DOM
state, so the DOM path cannot influence the result), and fails with the
single `NotAvailable` error exactly when both paths yield nothing; every
transport error, HTTP error or missing/empty payload is swallowed by the
structured path as `none`, and a DOM with no button and no open panel,
or with only blank segments, yields `none` as well. -/
theorem C1_extract_fallback (vid : Option (List Char)) (api : PlayerAPIInput)
    (dom : DOMState) :
    (∀ v, vid = some v → v ≠ [] →
      ((getTranscriptFromPlayerAPI api = none → getTranscriptFromDOM dom = none →
        getYouTubeTranscript vid api dom = Except.error notAvailableMsg)
      ∧ (∀ t, getTranscriptFromPlayerAPI api = some t →
        getYouTubeTranscript vid api dom = Except.ok t)))
    ∧ getTranscriptFromPlayerAPI PlayerAPIInput.fetchError = none
    ∧ getTranscriptFromPlayerAPI PlayerAPIInput.httpError = none
    ∧ getTranscriptFromPlayerAPI (PlayerAPIInput.payload none) = none
    ∧ (∀ events, flattenEvents events = [] →
        getTranscriptFromPlayerAPI (PlayerAPIInput.payload (some events)) = none)
    ∧ (∀ d : DOMState, d.buttonFound = false → d.panelOpen = false →
        getTranscriptFromDOM d = none)
    ∧ (∀ d : DOMState, (∀ s ∈ d.segments, jsTrim (s.getD []) = []) →
        getTranscriptFromDOM d = none) := by
  refine ⟨?_, rfl, rfl, rfl, ?_, ?_, domNone_of_blank⟩
  · intro v hv hne
    have htr : jsTruthyS vid = true := by
      rw [hv]
      simpa [jsTruthyS] using hne
    constructor
    · intro hapi hdom
      unfold getYouTubeTranscript
      rw [if_pos htr]
      unfold fetchTranscriptFromYouTube
      rw [hapi, hdom]
    · intro t hapi
      unfold getYouTubeTranscript
      rw [if_pos htr]
      unfold fetchTranscriptFromYouTube
      rw [hapi]
  · intro events h
    show (if flattenEvents events = [] then (none : Option (List Char))
      else some (flattenEvents events)) = none
    rw [if_pos h]
  · intro d hb hp
    unfold getTranscriptFromDOM
    rw [if_pos (by rw [hb, hp]; rfl)]

/-- C1 (witness): an HTTP error on the structured path together with a
DOM carrying neither button nor panel makes the extractor fail with
`NotAvailable`. -/
theorem C1_witness :
    getYouTubeTranscript (some ("dQw4w9WgXcQ".data)) PlayerAPIInput.httpError
      (DOMState.mk false false []) = Except.error notAvailableMsg := by
  have h := C1_extract_fallback (some ("dQw4w9WgXcQ".data)) PlayerAPIInput.httpError
    (DOMState.mk false false [])
  exact (h.1 _ rfl (by decide)).1 h.2.2.1 (h.2.2.2.2.2.1 _ rfl rfl)

/-- C6: for a payload whose `events` field is present, the structured
path returns the flattened text — segments of one event joined with no
separator, events joined with one space, newlines replaced, whitespace
runs collapsed, trimmed — whenever it is non-empty (an empty flattening
is demoted to "no result"); on the spec's fixture it yields
"Hello world". -/
theorem C6_structured_flatten (events : List TEvent) :
    (flattenEvents events ≠ [] →
      getTranscriptFromPlayerAPI (PlayerAPIInput.payload (some events))
        = some (flattenEvents events))
    ∧ (flattenEvents events = [] →
      getTranscriptFromPlayerAPI (PlayerAPIInput.payload (some events)) = none)
    ∧ flattenEvents helloEvents = "Hello world".data := by
  refine ⟨?_, ?_, by decide⟩
  · intro h
    show (if flattenEvents events = [] then (none : Option (List Char))
      else some (flattenEvents events)) = some (flattenEvents events)
    rw [if_neg h]
  · intro h
    show (if flattenEvents events = [] then (none : Option (List Char))
      else some (flattenEvents events)) = none
    rw [if_pos h]

/-- C6 (witness): the structured path on the spec's fixture events. -/
theorem C6_witness :
    getTranscriptFromPlayerAPI (PlayerAPIInput.payload (some helloEvents))
      = some ("Hello world".data) := by
  have h := C6_structured_flatten helloEvents
  exact (h.1 (by decide)).trans (by rw [h.2.2])

/-! ## Locator support lemmas -/

/-- A successful `findFirst` returns the index of the first element
satisfying the predicate, in list order. -/
theorem findFirst_some_iff_first (p : List Char → Bool) (ls : List (List Char)) (i : Nat)
    (h : findFirst p ls = some i) :
    ∃ pre x suf, ls = pre ++ x :: suf ∧ pre.length = i ∧ p x = true
      ∧ ∀ y ∈ pre, p y = false := by
  induction ls generalizing i with
  | nil => simp [findFirst] at h
  | cons l rest ih =>
    rw [findFirst] at h
    by_cases hp : p l = true
    · rw [if_pos hp] at h
      obtain rfl : (0 : Nat) = i := by simpa using h
      exact ⟨[], l, rest, rfl, rfl, hp, by simp⟩
    · rw [if_neg hp] at h
      cases hf : findFirst p rest with
      | none =>
        rw [hf] at h
        simp at h
      | some j =>
        rw [hf] at h
        have hj : j + 1 = i := by simpa using h
        obtain ⟨pre, x, suf, e1, e2, e3, e4⟩ := ih j hf
        refine ⟨l :: pre, x, suf, by simp [e1], by simp [e2, hj], e3, ?_⟩
        intro y hy
        rcases List.mem_cons.1 hy with rfl | hmem
        · simpa using hp
        · exact e4 y hmem

/-- A failed `findFirst` means no element satisfies the predicate. -/
theorem findFirst_none_iff (p : List Char → Bool) (ls : List (List Char)) :
    findFirst p ls = none ↔ ∀ l ∈ ls, p l = false := by
  induction ls with
  | nil => simp [findFirst]
  | cons l rest ih =>
    rw [findFirst]
    by_cases hp : p l = true
    · rw [if_pos hp]
      simp [hp]
    · rw [if_neg hp]
      have hp2 : p l = false := by simpa using hp
      simp [Option.map_eq_none', ih, List.forall_mem_cons, hp2]

/-- The locator returns nothing exactly when all three passes fail. -/
theorem getTranscriptButton_none_iff (lang : List Char) (labels : List (List Char)) :
    getTranscriptButton lang labels = none ↔
      findFirst (pass1 (expectedLabelFor lang)) labels = none
      ∧ findFirst (pass2 (expectedLabelFor lang)) labels = none
      ∧ findFirst pass3 labels = none := by
  simp only [getTranscriptButton]
  cases hf1 : findFirst (pass1 (expectedLabelFor lang)) labels with
  | some i => simp
  | none =>
    cases hf2 : findFirst (pass2 (expectedLabelFor lang)) labels with
    | some i => simp
    | none => simp

/-- C7: the locator resolves the expected label from the static table
(falling back to the English label when the language is unmapped) and
applies the three passes strictly in order: the result is the first
pass-1 match in document order; pass 2 is consulted only when pass 1 is
exhausted, pass 3 only when pass 2 is, and `none` is returned exactly
when no pass matches any label. -/
theorem C7_locator_passes (lang : List Char) (labels : List (List Char)) :
    TRANSCRIPT_BUTTON_LABELS.lookup ("en".data) = some ("Show transcript".data)
    ∧ (TRANSCRIPT_BUTTON_LABELS.lookup lang = none →
        expectedLabelFor lang = "Show transcript".data)
    ∧ (∀ l, TRANSCRIPT_BUTTON_LABELS.lookup lang = some l → expectedLabelFor lang = l)
    ∧ (∀ i, findFirst (pass1 (expectedLabelFor lang)) labels = some i →
        getTranscriptButton lang labels = some i
        ∧ ∃ pre x suf, labels = pre ++ x :: suf ∧ pre.length = i
          ∧ pass1 (expectedLabelFor lang) x = true
          ∧ ∀ y ∈ pre, pass1 (expectedLabelFor lang) y = false)
    ∧ (findFirst (pass1 (expectedLabelFor lang)) labels = none →
        ∀ i, findFirst (pass2 (expectedLabelFor lang)) labels = some i →
          getTranscriptButton lang labels = some i)
    ∧ (findFirst (pass1 (expectedLabelFor lang)) labels = none →
        findFirst (pass2 (expectedLabelFor lang)) labels = none →
        getTranscriptButton lang labels = findFirst pass3 labels)
    ∧ (getTranscriptButton lang labels = none ↔
        ∀ l ∈ labels, pass1 (expectedLabelFor lang) l = false
          ∧ pass2 (expectedLabelFor lang) l = false ∧ pass3 l = false) := by
  refine ⟨by decide, ?_, ?_, ?_, ?_, ?_, ?_⟩
  · intro h
    unfold expectedLabelFor
    rw [h]
    rfl
  · intro l h
    unfold expectedLabelFor
    rw [h]
    rfl
  · intro i h
    refine ⟨?_, findFirst_some_iff_first _ _ _ h⟩
    simp only [getTranscriptButton]
    rw [h]
  · intro h1 i h2
    simp only [getTranscriptButton]
    rw [h1, h2]
  · intro h1 h2
    simp only [getTranscriptButton]
    rw [h1, h2]
  · rw [getTranscriptButton_none_iff]
    constructor
    · intro hh l hl
      exact ⟨(findFirst_none_iff _ _).1 hh.1 l hl,
        (findFirst_none_iff _ _).1 hh.2.1 l hl,
        (findFirst_none_iff _ _).1 hh.2.2 l hl⟩
    · intro hall
      exact ⟨(findFirst_none_iff _ _).2 (fun l hl => (hall l hl).1),
        (findFirst_none_iff _ _).2 (fun l hl => (hall l hl).2.1),
        (findFirst_none_iff _ _).2 (fun l hl => (hall l hl).2.2)⟩

/-- C7 (witness): with Spanish detected, a decoy button first and the
exactly-labelled button second, pass 1 picks index 1. -/
theorem C7_witness :
    getTranscriptButton ("es".data)
      [("Subscribe".data), ("Mostrar transcripción".data)] = some 1 := by
  have h := C7_locator_passes ("es".data)
    [("Subscribe".data), ("Mostrar transcripción".data)]
  exact (h.2.2.2.1 1 (by decide)).1

/-- C8: `getYouTubeLanguage` selects by strict priority — a non-empty
`hl` URL parameter, else a non-empty document language attribute, else a
non-empty environment locale, else the literal "en" — and applies the
normalization (strip the region suffix, lowercase) to the chosen signal;
in particular `fr-CA` gives `fr` and `de-DE` gives `de`. -/
theorem C8_language_priority (hl htmlLang navLang : Option (List Char)) :
    (∀ p, hl = some p → p ≠ [] →
      getYouTubeLanguage hl htmlLang navLang = normLang p)
    ∧ (jsTruthyS hl = false → ∀ d, htmlLang = some d → d ≠ [] →
      getYouTubeLanguage hl htmlLang navLang = normLang d)
    ∧ (jsTruthyS hl = false → jsTruthyS htmlLang = false →
      ∀ n, navLang = some n → n ≠ [] →
        getYouTubeLanguage hl htmlLang navLang = normLang n)
    ∧ (jsTruthyS hl = false → jsTruthyS htmlLang = false → jsTruthyS navLang = false →
      getYouTubeLanguage hl htmlLang navLang = "en".data)
    ∧ normLang ("fr-CA".data) = "fr".data
    ∧ normLang ("de-DE".data) = "de".data := by
  refine ⟨?_, ?_, ?_, ?_, by decide, by decide⟩
  · intro p hp hne
    have ht : jsTruthyS hl = true := by
      rw [hp]
      simpa [jsTruthyS] using hne
    unfold getYouTubeLanguage
    rw [if_pos ht, hp]
    rfl
  · intro h1 d hd hne
    have ht : jsTruthyS htmlLang = true := by
      rw [hd]
      simpa [jsTruthyS] using hne
    unfold getYouTubeLanguage
    rw [if_neg (by rw [h1]; simp), if_pos ht, hd]
    rfl
  · intro h1 h2 n hn hne
    have ht : jsTruthyS navLang = true := by
      rw [hn]
      simpa [jsTruthyS] using hne
    unfold getYouTubeLanguage
    rw [if_neg (by rw [h1]; simp), if_neg (by rw [h2]; simp), if_pos ht, hn]
    rfl
  · intro h1 h2 h3
    unfold getYouTubeLanguage
    rw [if_neg (by rw [h1]; simp), if_neg (by rw [h2]; simp), if_neg (by rw [h3]; simp)]
    decide

/-- C8 (witness): the three spec examples, derived from the priority
theorem. -/
theorem C8_witness :
    getYouTubeLanguage (some ("fr-CA".data)) none none = "fr".data
    ∧ getYouTubeLanguage none (some ("de-DE".data)) none = "de".data
    ∧ getYouTubeLanguage none none none = "en".data := by
  refine ⟨?_, ?_, ?_⟩
  · have h := C8_language_priority (some ("fr-CA".data)) none none
    rw [h.1 _ rfl (by decide)]
    exact h.2.2.2.2.1
  · have h := C8_language_priority none (some ("de-DE".data)) none
    rw [h.2.1 rfl _ rfl (by decide)]
    exact h.2.2.2.2.2
  · exact (C8_language_priority none none none).2.2.2.1 rfl rfl rfl

/-- C9: the enhancer maps HTTP 429 to the rate-limit error, whose
message carries the formatted reset time exactly when the
`x-ratelimit-reset` header is present (and the generic hint otherwise),
maps 503 to the model-loading error mentioning the 20-second wait, maps
every other non-success status to an error carrying the status code and
the raw body, and on success returns the `summary_text` of the first
result entry. -/
theorem C9_enhance_statuses (fmtTime : List Char → List Char) (resp : HFResp) :
    (resp.status = 429 → ∀ h, resp.resetHeader = some h → h ≠ [] →
      enhanceTranscriptWithAI fmtTime resp
        = Except.error (("Rate limit exceeded. Try again after ".data) ++ fmtTime h))
    ∧ (resp.status = 429 → jsTruthyS resp.resetHeader = false →
      enhanceTranscriptWithAI fmtTime resp
        = Except.error ("Rate limit exceeded. Try again later".data))
    ∧ (resp.status = 503 →
      enhanceTranscriptWithAI fmtTime resp
        = Except.error ("Model is loading. Please wait 20 seconds and try again".data)
      ∧ containsSeq ("20 seconds".data)
          ("Model is loading. Please wait 20 seconds and try again".data) = true)
    ∧ (respOk resp.status = false → resp.status ≠ 429 → resp.status ≠ 503 →
      enhanceTranscriptWithAI fmtTime resp
        = Except.error (("API error: ".data) ++ (Nat.repr resp.status).data
          ++ (" - ".data) ++ resp.bodyText))
    ∧ (respOk resp.status = true → ∀ e rest, resp.jsonBody = some (e :: rest) →
      enhanceTranscriptWithAI fmtTime resp = Except.ok e.summary_text) := by
  refine ⟨?_, ?_, ?_, ?_, ?_⟩
  · intro h429 h hh hne
    have hok : respOk resp.status = false := by rw [h429]; decide
    have ht : jsTruthyS resp.resetHeader = true := by
      rw [hh]
      simpa [jsTruthyS] using hne
    unfold enhanceTranscriptWithAI
    rw [if_pos (by rw [hok]; rfl), if_pos h429, if_pos ht, hh]
    rfl
  · intro h429 hf
    have hok : respOk resp.status = false := by rw [h429]; decide
    unfold enhanceTranscriptWithAI
    rw [if_pos (by rw [hok]; rfl), if_pos h429, if_neg (by rw [hf]; simp)]
  · intro h503
    have hok : respOk resp.status = false := by rw [h503]; decide
    refine ⟨?_, by decide⟩
    unfold enhanceTranscriptWithAI
    rw [if_pos (by rw [hok]; rfl), if_neg (by rw [h503]; decide), if_pos h503]
  · intro hok h429 h503
    unfold enhanceTranscriptWithAI
    rw [if_pos (by rw [hok]; rfl), if_neg h429, if_neg h503]
  · intro hok e rest hj
    unfold enhanceTranscriptWithAI
    rw [if_neg (by rw [hok]; simp), hj]

/-- C9 (witness): a 429 response with a reset header yields the message
with the formatted time; a 503 response yields the 20-second message. -/
theorem C9_witness :
    enhanceTranscriptWithAI (fun _ => "10:30:00 AM".data)
      (HFResp.mk 429 (some ("1731000000".data)) [] none)
      = Except.error (("Rate limit exceeded. Try again after ".data)
        ++ "10:30:00 AM".data)
    ∧ enhanceTranscriptWithAI (fun _ => "10:30:00 AM".data)
      (HFResp.mk 503 none [] none)
      = Except.error ("Model is loading. Please wait 20 seconds and try again".data) := by
  constructor
  · exact (C9_enhance_statuses (fun _ => "10:30:00 AM".data)
      (HFResp.mk 429 (some ("1731000000".data)) [] none)).1 rfl _ rfl (by decide)
  · exact ((C9_enhance_statuses (fun _ => "10:30:00 AM".data)
      (HFResp.mk 503 none [] none)).2.2.1 rfl).1

/-! ## Lowercase normalization (C10 support) -/

theorem toLower_ofNat_range (n : Nat) (h1 : 65 ≤ n) (h2 : n ≤ 90) :
    Char.toLower (Char.ofNat (n + 32)) = Char.ofNat (n + 32) := by
  interval_cases n <;> decide

theorem toLower_idem (c : Char) :
    Char.toLower (Char.toLower c) = Char.toLower c := by
  by_cases h : 65 ≤ c.toNat ∧ c.toNat ≤ 90
  · have he : Char.toLower c = Char.ofNat (c.toNat + 32) := by
      unfold Char.toLower
      rw [if_pos ⟨h.1, h.2⟩]
    rw [he, toLower_ofNat_range c.toNat h.1 h.2]
  · have he : Char.toLower c = c := by
      unfold Char.toLower
      rw [if_neg h]
    rw [he, he]

theorem jsToLower_idem (s : List Char) : jsToLower (jsToLower s) = jsToLower s := by
  unfold jsToLower
  rw [List.map_map]
  induction s with
  | nil => rfl
  | cons c rest ih =>
    simp only [List.map_cons, Function.comp_apply, toLower_idem, ih]

/-- C10 (counterexample): an `hl` parameter that is not a two-letter
code is passed through, so the result is not always two letters. -/
theorem C10_counterexample :
    getYouTubeLanguage (some ("fra".data)) none none = "fra".data
    ∧ ("fra".data).length ≠ 2 := by
  decide

/-- C10 (amended): the detector's result is always lowercase-normalized
(a fixed point of lowercasing: it is the first hyphen-separated segment
of the chosen signal, lowercased, or the literal "en"), but it is a
two-letter code only when the chosen signal's primary subtag has two
characters. -/
theorem C10_lowercase_normalized (hl htmlLang navLang : Option (List Char)) :
    jsToLower (getYouTubeLanguage hl htmlLang navLang)
      = getYouTubeLanguage hl htmlLang navLang := by
  unfold getYouTubeLanguage
  by_cases h1 : jsTruthyS hl = true
  · rw [if_pos h1]
    exact jsToLower_idem _
  · rw [if_neg h1]
    by_cases h2 : jsTruthyS htmlLang = true
    · rw [if_pos h2]
      exact jsToLower_idem _
    · rw [if_neg h2]
      exact jsToLower_idem _

end YTT
